import Mathlib

/-!
Shallow embedding of the Gaia agent core from `Gaya_v3.py`.

Values read from sensors and stored in the weight matrix are modelled as
rationals.  A sensor's read function may be non-deterministic or failing in
Python; it is embedded as a function from a world-time index to `Option ℚ`
(`none` models a raised exception on that read).  The random sources used by
`numpy` (`np.random.rand`) are passed in explicitly, as functions or matrices
of draws.  Exceptions propagate as `Except GaiaErr`; a cycle returns the
post-cycle agent state together with the outcome, so that a raised exception
after a mutation still exhibits the mutated state, exactly as in Python.
-/

/-- Error kinds that the Python code can raise while running a cycle. -/
inductive GaiaErr where
  | sensorRead
  | dimensionMismatch
  | emptyArgmax
  | indexError
  deriving DecidableEq, Repr

/-- Embeds class `Sentido` (lines 21-27): a named data stream.  The Python
read function `funcao_leitura` is embedded as a function of a world-time
index `t`; `none` models a read that raises. -/
structure Sentido where
  nome : String
  funcao_leitura : Nat → Option ℚ

/-- Embeds `Sentido.ler` (lines 26-27). -/
def Sentido.ler (s : Sentido) (t : Nat) : Option ℚ :=
  s.funcao_leitura t

/-- Embeds class `Dominio` (lines 29-37): a named sensor list plus action list. -/
structure Dominio where
  nome : String
  sentidos : List Sentido
  acoes_possiveis : List String

/-- Embeds `Dominio.__init__` (lines 31-34).  The Python constructor only
assigns the three fields and contains no validation and no raise statement,
so it always succeeds; it is wrapped in `Except` to make the possibility of a
construction-time error statable. -/
def Dominio.init (nome : String) (sentidos_iniciais : List Sentido)
    (acoes_possiveis : List String) : Except GaiaErr Dominio :=
  .ok ⟨nome, sentidos_iniciais, acoes_possiveis⟩

/-- One step of a Python dict comprehension `{k: v ...}`: inserting key `k`
with value `v` overwrites the value of an existing key in place (keeping the
key's original position) and otherwise appends the new pair at the end. -/
def dictInsert (d : List (String × ℚ)) (k : String) (v : ℚ) : List (String × ℚ) :=
  if d.any (fun p => p.1 = k) then
    d.map (fun p => if p.1 = k then (k, v) else p)
  else
    d ++ [(k, v)]

/-- Embeds the dict comprehension `{s.nome: s.ler() for s in sentidos}`:
reads each sensor once, in order, aborting at the first read that raises. -/
def observarAux (t : Nat) : List Sentido → List (String × ℚ) →
    Except GaiaErr (List (String × ℚ))
  | [], d => .ok d
  | s :: rest, d =>
    match s.ler t with
    | some v => observarAux t rest (dictInsert d s.nome v)
    | none => .error .sensorRead

/-- Reads a whole sensor list into a Python-dict-like association list. -/
def observarSentidos (sentidos : List Sentido) (t : Nat) :
    Except GaiaErr (List (String × ℚ)) :=
  observarAux t sentidos []

/-- Embeds `Dominio.observar_realidade` (lines 35-37). -/
def Dominio.observar_realidade (d : Dominio) (t : Nat) :
    Except GaiaErr (List (String × ℚ)) :=
  observarSentidos d.sentidos t

/-- Embeds class `MotorEvolutivo` (lines 39-52).  `n_sentidos` and `n_acoes`
carry the numpy array shape `(S, A)` of `pesos`. -/
structure MotorEvolutivo where
  n_sentidos : Nat
  n_acoes : Nat
  pesos : List (List ℚ)

/-- Builds an `nr × nc` matrix from an entry source, as `np.random.rand(nr, nc)`
builds one from the random stream. -/
def mkMatrix (nr nc : Nat) (f : Nat → Nat → ℚ) : List (List ℚ) :=
  (List.range nr).map (fun i => (List.range nc).map (fun j => f i j))

/-- Embeds `MotorEvolutivo.__init__` (lines 41-43): `pesos` is a fresh
`(n_sentidos, n_acoes)` matrix of draws from the random source `rand`. -/
def MotorEvolutivo.init (nS nA : Nat) (rand : Nat → Nat → ℚ) : MotorEvolutivo :=
  ⟨nS, nA, mkMatrix nS nA rand⟩

/-- Embeds `MotorEvolutivo.pensar` (lines 45-47), i.e. `np.dot(v, pesos)` for a
vector `v` and an `(S, A)` matrix: `np.dot` raises when `len(v)` differs from
the row count, and otherwise returns the length-`A` vector of
`result[a] = Σ_s v[s] * pesos[s][a]`.  The Python method only reads
`self.pesos`, so the embedding is a pure function of the motor. -/
def MotorEvolutivo.pensar (m : MotorEvolutivo) (realidade_vetor : List ℚ) :
    Except GaiaErr (List ℚ) :=
  if realidade_vetor.length = m.pesos.length then
    .ok ((List.zip realidade_vetor m.pesos).foldl
      (fun acc p => List.zipWith (fun a b => a + b) acc (p.2.map (fun w => p.1 * w)))
      (List.replicate m.n_acoes 0))
  else
    .error .dimensionMismatch

/-- Embeds `MotorEvolutivo.evoluir` (lines 49-52):
`pesos += (np.random.rand(*pesos.shape) - 0.5) * taxa_mutacao`, with the
matrix of uniform draws passed in as `rand`. -/
def MotorEvolutivo.evoluir (m : MotorEvolutivo) (rand : List (List ℚ))
    (taxa_mutacao : ℚ) : MotorEvolutivo :=
  ⟨m.n_sentidos, m.n_acoes,
    List.zipWith (fun row rrow =>
      List.zipWith (fun w u => w + (u - 1/2) * taxa_mutacao) row rrow)
      m.pesos rand⟩

/-- Embeds class `NucleoEtico` (lines 54-65). -/
structure NucleoEtico where
  imperativos : List Sentido

/-- Embeds `NucleoEtico.calcular_dissonancia` (lines 59-61):
`sum(realidade_etica.values())`. -/
def NucleoEtico.calcular_dissonancia (_n : NucleoEtico)
    (realidade_etica : List (String × ℚ)) : ℚ :=
  (realidade_etica.map Prod.snd).sum

/-- Embeds `NucleoEtico.observar_realidade_etica` (lines 63-65). -/
def NucleoEtico.observar_realidade_etica (n : NucleoEtico) (t : Nat) :
    Except GaiaErr (List (String × ℚ)) :=
  observarSentidos n.imperativos t

/-- Embeds class `Gaia` (lines 67-96). -/
structure Gaia where
  dominio : Dominio
  motor : MotorEvolutivo
  nucleo_etico : NucleoEtico

/-- Embeds `Gaia.__init__` (lines 69-75): the motor is sized from the domain
(`len(sentidos)` rows, `len(acoes_possiveis)` columns) and the ethical core
holds two fixed sensors whose reads never raise; their `random.random()`
sources are passed in as `danoRand` and `bemRand`. -/
def Gaia.init (dominio : Dominio) (pesosRand : Nat → Nat → ℚ)
    (danoRand bemRand : Nat → ℚ) : Gaia :=
  ⟨dominio,
   MotorEvolutivo.init dominio.sentidos.length dominio.acoes_possiveis.length pesosRand,
   ⟨[⟨"dano_sistemico", fun t => some (danoRand t * (1/10))⟩,
     ⟨"bem-estar_agentes", fun t => some (bemRand t)⟩]⟩⟩

/-- Embeds `np.mean`: sum divided by length (the `ℚ` convention `x / 0 = 0`
stands in for numpy's NaN on the empty vector, which the code never uses:
the mean of an empty raw decision is multiplied into an empty map). -/
def npMean (l : List ℚ) : ℚ :=
  l.sum / (l.length : ℚ)

/-- Embeds `np.argmax`: the least index attaining the maximal value (numpy
documents that ties return the first occurrence).  On the empty vector the
Python call raises; callers must test for emptiness, and the `0` returned
here is never used on that branch. -/
def npArgmax : List ℚ → Nat
  | [] => 0
  | [_] => 0
  | x :: y :: ys =>
    if x < (y :: ys).getD (npArgmax (y :: ys)) 0 then npArgmax (y :: ys) + 1 else 0

/-- Embeds line 91: `decisao_bruta - dissonancia * np.mean(decisao_bruta)`,
numpy broadcasting the scalar over the vector. -/
def temper (decisao_bruta : List ℚ) (dissonancia : ℚ) : List ℚ :=
  decisao_bruta.map (fun x => x - dissonancia * npMean decisao_bruta)

/-- Embeds `Gaia.viver_um_ciclo` (lines 77-96).  `t` is the world-time index
at which every sensor of this cycle is read; `rand` is the matrix of draws
`np.random.rand(*pesos.shape)` consumed by the mutation step.  The first
component of the result is the agent state after the call (mutated exactly
when line 94 was reached), the second the returned action or the raised
error. -/
def viver_um_ciclo (g : Gaia) (t : Nat) (rand : List (List ℚ)) :
    Gaia × Except GaiaErr String :=
  match g.dominio.observar_realidade t with
  | .error e => (g, .error e)
  | .ok realidade_dict =>
    match g.motor.pensar (realidade_dict.map Prod.snd) with
    | .error e => (g, .error e)
    | .ok decisao_bruta =>
      match g.nucleo_etico.observar_realidade_etica t with
      | .error e => (g, .error e)
      | .ok realidade_etica_dict =>
        let dissonancia := g.nucleo_etico.calcular_dissonancia realidade_etica_dict
        let decisao_final := temper decisao_bruta dissonancia
        let g' : Gaia := ⟨g.dominio, g.motor.evoluir rand (1/100), g.nucleo_etico⟩
        if decisao_final.isEmpty then
          (g', .error .emptyArgmax)
        else
          match g.dominio.acoes_possiveis.get? (npArgmax decisao_final) with
          | some a => (g', .ok a)
          | none => (g', .error .indexError)

/-- Modelled from the spec (§4.5): the cycle in the SPECIFICATION's order,
where Selecting (step 4) happens before Adapting (step 5), so a failure at
selection aborts before any mutation.  Written only to be compared with the
source-order `viver_um_ciclo`; it is not code of the repository. -/
def viver_um_ciclo_spec (g : Gaia) (t : Nat) (rand : List (List ℚ)) :
    Gaia × Except GaiaErr String :=
  match g.dominio.observar_realidade t with
  | .error e => (g, .error e)
  | .ok realidade_dict =>
    match g.motor.pensar (realidade_dict.map Prod.snd) with
    | .error e => (g, .error e)
    | .ok decisao_bruta =>
      match g.nucleo_etico.observar_realidade_etica t with
      | .error e => (g, .error e)
      | .ok realidade_etica_dict =>
        let dissonancia := g.nucleo_etico.calcular_dissonancia realidade_etica_dict
        let decisao_final := temper decisao_bruta dissonancia
        if decisao_final.isEmpty then
          (g, .error .emptyArgmax)
        else
          match g.dominio.acoes_possiveis.get? (npArgmax decisao_final) with
          | some a =>
            (⟨g.dominio, g.motor.evoluir rand (1/100), g.nucleo_etico⟩, .ok a)
          | none => (g, .error .indexError)

/-! ### Concrete states used by witnesses and counterexamples -/

/-- A sensor that always reads `1`. -/
def senUm : Sentido :=
  ⟨"competicao_mercado", fun _ => some 1⟩

/-- A sensor that always reads `0`. -/
def senZero : Sentido :=
  ⟨"satisfacao_cliente", fun _ => some 0⟩

/-- The spec's test scenario: two sensors fixed at `[1, 0]`, three actions. -/
def domCenario : Dominio :=
  ⟨"cenario", [senUm, senZero], ["acao0", "acao1", "acao2"]⟩

/-- Initial-weight source producing the scenario matrix `[[2,0,1],[0,1,3]]`. -/
def pesosCenario : Nat → Nat → ℚ :=
  fun i j => (([[2, 0, 1], [0, 1, 3]] : List (List ℚ)).getD i []).getD j 0

/-- The scenario agent: weights `[[2,0,1],[0,1,3]]`, ethical sources at zero,
hence zero dissonance. -/
def gCenario : Gaia :=
  Gaia.init domCenario pesosCenario (fun _ => 0) (fun _ => 0)

/-- A `2 × 3` matrix of mutation draws, all at `1/2` (no displacement). -/
def randMeio : List (List ℚ) :=
  [[1/2, 1/2, 1/2], [1/2, 1/2, 1/2]]

/-- A domain with one healthy sensor and an EMPTY action list. -/
def domVazio : Dominio :=
  ⟨"vazio", [senUm], []⟩

/-- An agent over the empty-action domain (weight matrix of shape `(1, 0)`). -/
def gVazio : Gaia :=
  Gaia.init domVazio (fun _ _ => 0) (fun _ => 0) (fun _ => 0)

/-- A domain whose two sensors share the name `"s"`. -/
def domDup : Dominio :=
  ⟨"dup", [⟨"s", fun _ => some 1⟩, ⟨"s", fun _ => some 2⟩], ["a"]⟩

/-- A sensor whose read always raises. -/
def senFalha : Sentido :=
  ⟨"falha", fun _ => none⟩

/-- An agent with a failing domain sensor and one action. -/
def gFalha : Gaia :=
  Gaia.init ⟨"f", [senFalha], ["a"]⟩ (fun _ _ => 0) (fun _ => 0) (fun _ => 0)

/-! ### Generic list lemmas -/

theorem getD_zipWith {α β γ : Type} (f : α → β → γ) (as : List α) (bs : List β)
    (i : Nat) (da : α) (db : β) (dc : γ) (ha : i < as.length) (hb : i < bs.length) :
    (List.zipWith f as bs).getD i dc = f (as.getD i da) (bs.getD i db) := by
  rw [List.getD_eq_getElem _ _ (by rw [List.length_zipWith]; omega),
    List.getElem_zipWith, List.getD_eq_getElem _ _ ha, List.getD_eq_getElem _ _ hb]

theorem getD_map_rat (f : ℚ → ℚ) (l : List ℚ) (i : Nat) (h : i < l.length) :
    (l.map f).getD i 0 = f (l.getD i 0) := by
  rw [List.getD_eq_getElem _ _ (by simpa using h), List.getElem_map,
    List.getD_eq_getElem _ _ h]

theorem getD_zip (v : List ℚ) (w : List (List ℚ)) (i : Nat)
    (hi : i < v.length) (hw : i < w.length) :
    (List.zip v w).getD i (0, []) = (v.getD i 0, w.getD i []) := by
  rw [List.getD_eq_getElem _ _ (by rw [List.length_zip]; omega), List.getElem_zip,
    List.getD_eq_getElem _ _ hi, List.getD_eq_getElem _ _ hw]

theorem getD_mem {α : Type} (l : List α) (i : Nat) (d : α) (h : i < l.length) :
    l.getD i d ∈ l := by
  rw [List.getD_eq_getElem _ _ h]
  exact List.getElem_mem h

/-! ### Specification of `npArgmax` -/

theorem npArgmax_cons_cons (x y : ℚ) (ys : List ℚ) :
    npArgmax (x :: y :: ys) =
      if x < (y :: ys).getD (npArgmax (y :: ys)) 0 then npArgmax (y :: ys) + 1 else 0 :=
  rfl

/-- The argmax index is in range on a nonempty vector. -/
theorem npArgmax_lt_length : ∀ (l : List ℚ), l ≠ [] → npArgmax l < l.length
  | [], h => absurd rfl h
  | [_], _ => by simp [npArgmax]
  | x :: y :: ys, _ => by
    have ih := npArgmax_lt_length (y :: ys) (by simp)
    rw [npArgmax_cons_cons]
    split
    · simpa using Nat.succ_lt_succ ih
    · simp

/-- The value at the argmax index dominates every entry. -/
theorem npArgmax_is_max : ∀ (l : List ℚ) (j : Nat), j < l.length →
    l.getD j 0 ≤ l.getD (npArgmax l) 0
  | [], j, hj => by simp at hj
  | [x], j, hj => by
    cases j with
    | zero => simp [npArgmax]
    | succ n => simp at hj
  | x :: y :: ys, j, hj => by
    have ih := npArgmax_is_max (y :: ys)
    rw [npArgmax_cons_cons]
    by_cases h : x < (y :: ys).getD (npArgmax (y :: ys)) 0
    · rw [if_pos h]
      cases j with
      | zero => simpa using le_of_lt h
      | succ n =>
        simp only [List.getD_cons_succ]
        exact ih n (by simpa using hj)
    · rw [if_neg h]
      push_neg at h
      cases j with
      | zero => simp
      | succ n =>
        simp only [List.getD_cons_succ, List.getD_cons_zero]
        exact le_trans (ih n (by simpa using hj)) h

/-- Every index strictly before the argmax holds a strictly smaller value:
the argmax is the first occurrence of the maximum, numpy's tie-break. -/
theorem npArgmax_is_first : ∀ (l : List ℚ) (j : Nat), j < npArgmax l →
    l.getD j 0 < l.getD (npArgmax l) 0
  | [], j, hj => by simp [npArgmax] at hj
  | [_], j, hj => by simp [npArgmax] at hj
  | x :: y :: ys, j, hj => by
    have ih := npArgmax_is_first (y :: ys)
    rw [npArgmax_cons_cons] at hj ⊢
    by_cases h : x < (y :: ys).getD (npArgmax (y :: ys)) 0
    · rw [if_pos h] at hj ⊢
      cases j with
      | zero => simpa using h
      | succ n =>
        simp only [List.getD_cons_succ]
        exact ih n (Nat.lt_of_succ_lt_succ hj)
    · rw [if_neg h] at hj
      exact absurd hj (Nat.not_lt_zero j)

/-! ### Lemmas about the Python-dict observation -/

theorem dictInsert_of_not_mem (d : List (String × ℚ)) (k : String) (v : ℚ)
    (h : k ∉ d.map Prod.fst) : dictInsert d k v = d ++ [(k, v)] := by
  have hany : d.any (fun p => p.1 = k) = false := by
    rw [List.any_eq_false]
    intro p hp hpk
    exact h (List.mem_map.2 ⟨p, hp, of_decide_eq_true hpk⟩)
  simp [dictInsert, hany]

theorem dictInsert_keys_of_mem (d : List (String × ℚ)) (k : String) (v : ℚ)
    (h : k ∈ d.map Prod.fst) :
    (dictInsert d k v).map Prod.fst = d.map Prod.fst := by
  have hany : d.any (fun p => p.1 = k) = true := by
    rw [List.any_eq_true]
    rcases List.mem_map.1 h with ⟨p, hp, hpk⟩
    exact ⟨p, hp, decide_eq_true hpk⟩
  rw [dictInsert, if_pos (by simp [hany]), List.map_map]
  apply List.map_congr_left
  intro p hp
  by_cases hpk : p.1 = k <;> simp [hpk]

theorem dictInsert_length_of_mem (d : List (String × ℚ)) (k : String) (v : ℚ)
    (h : k ∈ d.map Prod.fst) : (dictInsert d k v).length = d.length := by
  have := congrArg List.length (dictInsert_keys_of_mem d k v h)
  simpa using this

/-- Key invariant of the observation fold: starting from a dict with
duplicate-free keys, the result has duplicate-free keys whose underlying set
is the starting keys together with all sensor names. -/
theorem observarAux_ok_keys : ∀ (ss : List Sentido) (t : Nat)
    (acc d : List (String × ℚ)), (acc.map Prod.fst).Nodup →
    observarAux t ss acc = .ok d →
    (d.map Prod.fst).Nodup ∧
    (d.map Prod.fst).toFinset =
      (acc.map Prod.fst).toFinset ∪ (ss.map Sentido.nome).toFinset
  | [], _, acc, d, hnd, h => by
    simp only [observarAux, Except.ok.injEq] at h
    subst h
    simpa using hnd
  | s :: rest, t, acc, d, hnd, h => by
    simp only [observarAux] at h
    cases hl : s.ler t with
    | none => rw [hl] at h; exact absurd h (by simp)
    | some v =>
      rw [hl] at h
      have h : observarAux t rest (dictInsert acc s.nome v) = .ok d := h
      by_cases hmem : s.nome ∈ acc.map Prod.fst
      · have hkeys := dictInsert_keys_of_mem acc s.nome v hmem
        have ih := observarAux_ok_keys rest t (dictInsert acc s.nome v) d
          (by rw [hkeys]; exact hnd) h
        refine ⟨ih.1, ?_⟩
        rw [ih.2, hkeys, List.map_cons, List.toFinset_cons, Finset.union_insert,
          Finset.insert_eq_self.2 (Finset.mem_union_left _ (by simpa using hmem))]
      · rw [dictInsert_of_not_mem acc s.nome v hmem] at h
        have hnd' : ((acc ++ [(s.nome, v)]).map Prod.fst).Nodup := by
          rw [List.map_append]
          simp [List.nodup_append, hnd, hmem]
        have ih := observarAux_ok_keys rest t (acc ++ [(s.nome, v)]) d hnd' h
        refine ⟨ih.1, ?_⟩
        rw [ih.2, List.map_append, List.toFinset_append, List.map_cons,
          List.toFinset_cons]
        ext a
        simp
        tauto

/-- With duplicate-free sensor names (none already present in the
accumulator), the observation has exactly one entry per sensor. -/
theorem observarAux_ok_length : ∀ (ss : List Sentido) (t : Nat)
    (acc d : List (String × ℚ)), (ss.map Sentido.nome).Nodup →
    (∀ s ∈ ss, s.nome ∉ acc.map Prod.fst) →
    observarAux t ss acc = .ok d → d.length = acc.length + ss.length
  | [], _, acc, d, _, _, h => by
    simp only [observarAux, Except.ok.injEq] at h
    subst h
    simp
  | s :: rest, t, acc, d, hnd, hdisj, h => by
    simp only [observarAux] at h
    cases hl : s.ler t with
    | none => rw [hl] at h; exact absurd h (by simp)
    | some v =>
      rw [hl] at h
      have h : observarAux t rest (dictInsert acc s.nome v) = .ok d := h
      rw [dictInsert_of_not_mem acc s.nome v (hdisj s (by simp))] at h
      have hnd' : (rest.map Sentido.nome).Nodup := (List.nodup_cons.1 (by simpa using hnd)).2
      have hdisj' : ∀ s' ∈ rest, s'.nome ∉ (acc ++ [(s.nome, v)]).map Prod.fst := by
        intro s' hs'
        rw [List.map_append]
        simp only [List.mem_append]
        rintro (hin | hin)
        · exact hdisj s' (by simp [hs']) hin
        · have : s'.nome = s.nome := by simpa using hin
          have : s.nome ∈ rest.map Sentido.nome := this ▸ List.mem_map.2 ⟨s', hs', rfl⟩
          exact (List.nodup_cons.1 (by simpa using hnd)).1 this
      have ih := observarAux_ok_length rest t (acc ++ [(s.nome, v)]) d hnd' hdisj' h
      rw [ih]
      simp
      omega

/-- Sensor reads that do not depend on the time index make the observation
independent of the time index. -/
theorem observarAux_time_const : ∀ (ss : List Sentido) (t u : Nat)
    (acc : List (String × ℚ)),
    (∀ s ∈ ss, ∀ t1 t2, s.funcao_leitura t1 = s.funcao_leitura t2) →
    observarAux t ss acc = observarAux u ss acc
  | [], _, _, _, _ => rfl
  | s :: rest, t, u, acc, hconst => by
    simp only [observarAux, Sentido.ler, hconst s (by simp) t u]
    cases s.funcao_leitura u with
    | none => rfl
    | some v => exact observarAux_time_const rest t u _ (fun s' hs' => hconst s' (by simp [hs']))

/-! ### Lemmas about scoring (`pensar`) -/

theorem dot_fold_length : ∀ (ps : List (ℚ × List ℚ)) (acc : List ℚ),
    (∀ p ∈ ps, p.2.length = acc.length) →
    (ps.foldl (fun acc p =>
      List.zipWith (fun a b => a + b) acc (p.2.map (fun w => p.1 * w))) acc).length
      = acc.length
  | [], _, _ => rfl
  | p :: ps, acc, hlen => by
    have hstep : (List.zipWith (fun a b => a + b) acc
        (p.2.map (fun w => p.1 * w))).length = acc.length := by
      rw [List.length_zipWith, List.length_map, hlen p (by simp)]
      omega
    rw [List.foldl_cons, dot_fold_length ps _ (fun q hq => by rw [hstep]; exact hlen q (by simp [hq])),
      hstep]

theorem dot_fold_nil_acc : ∀ (ps : List (ℚ × List ℚ)),
    ps.foldl (fun acc p =>
      List.zipWith (fun a b => a + b) acc (p.2.map (fun w => p.1 * w))) [] = []
  | [] => rfl
  | p :: ps => by
    rw [List.foldl_cons]
    exact dot_fold_nil_acc ps

theorem dot_fold_getD : ∀ (ps : List (ℚ × List ℚ)) (acc : List ℚ) (a : Nat),
    (∀ p ∈ ps, p.2.length = acc.length) → a < acc.length →
    (ps.foldl (fun acc p =>
      List.zipWith (fun a b => a + b) acc (p.2.map (fun w => p.1 * w))) acc).getD a 0
      = acc.getD a 0 +
        ∑ s ∈ Finset.range ps.length,
          (ps.getD s (0, [])).1 * ((ps.getD s (0, [])).2.getD a 0)
  | [], acc, a, _, _ => by simp
  | p :: ps, acc, a, hlen, ha => by
    have hstep : (List.zipWith (fun a b => a + b) acc
        (p.2.map (fun w => p.1 * w))).length = acc.length := by
      rw [List.length_zipWith, List.length_map, hlen p (by simp)]
      omega
    rw [List.foldl_cons,
      dot_fold_getD ps _ a (fun q hq => by rw [hstep]; exact hlen q (by simp [hq]))
        (by rw [hstep]; exact ha),
      getD_zipWith (fun a b => a + b) acc _ a 0 0 0 ha
        (by rw [List.length_map, hlen p (by simp)]; exact ha),
      getD_map_rat (fun w => p.1 * w) p.2 a (by rw [hlen p (by simp)]; exact ha)]
    rw [List.length_cons, Finset.sum_range_succ']
    simp only [List.getD_cons_succ, List.getD_cons_zero]
    ring

/-- Successful scoring is exactly the matrix-vector product
`result[a] = Σ_s v[s] * pesos[s][a]`, a length-`n_acoes` vector. -/
theorem pensar_ok_spec (m : MotorEvolutivo) (v : List ℚ)
    (hlen : v.length = m.pesos.length)
    (hrect : ∀ row ∈ m.pesos, row.length = m.n_acoes) :
    ∃ b, m.pensar v = .ok b ∧ b.length = m.n_acoes ∧
      ∀ a, a < m.n_acoes →
        b.getD a 0 = ∑ s ∈ Finset.range v.length,
          v.getD s 0 * ((m.pesos.getD s []).getD a 0) := by
  refine ⟨_, by rw [MotorEvolutivo.pensar, if_pos hlen], ?_, ?_⟩
  · have := dot_fold_length (List.zip v m.pesos) (List.replicate m.n_acoes 0)
      (fun p hp => by
        rw [List.length_replicate]
        exact hrect p.2 (List.of_mem_zip hp).2)
    simpa using this
  · intro a ha
    rw [dot_fold_getD (List.zip v m.pesos) (List.replicate m.n_acoes 0) a
      (fun p hp => by
        rw [List.length_replicate]
        exact hrect p.2 (List.of_mem_zip hp).2)
      (by simpa using ha)]
    rw [List.getD_eq_getElem _ _ (by simpa using ha), List.getElem_replicate, zero_add,
      List.length_zip, hlen, Nat.min_self]
    apply Finset.sum_congr rfl
    intro s hs
    have hs' : s < m.pesos.length := by
      rw [Finset.mem_range] at hs
      exact hs
    rw [getD_zip v m.pesos s (by omega) hs']

/-- A motor with zero actions scores every observation to the empty vector. -/
theorem pensar_ok_nil (m : MotorEvolutivo) (v : List ℚ) (b : List ℚ)
    (hna : m.n_acoes = 0) (h : m.pensar v = .ok b) : b = [] := by
  rw [MotorEvolutivo.pensar] at h
  split at h
  · rw [Except.ok.injEq] at h
    rw [← h, hna]
    exact dot_fold_nil_acc _
  · exact absurd h (by simp)

/-! ### Lemmas about mutation (`evoluir`) -/

theorem evoluir_length (m : MotorEvolutivo) (rand : List (List ℚ)) (taxa : ℚ)
    (h : rand.length = m.pesos.length) :
    (m.evoluir rand taxa).pesos.length = m.pesos.length := by
  rw [MotorEvolutivo.evoluir, List.length_zipWith, h, Nat.min_self]

theorem evoluir_row_length (m : MotorEvolutivo) (rand : List (List ℚ)) (taxa : ℚ)
    (i : Nat) (hi : i < m.pesos.length) (hr : rand.length = m.pesos.length)
    (hrow : ((rand.getD i []).length = (m.pesos.getD i []).length)) :
    ((m.evoluir rand taxa).pesos.getD i []).length = (m.pesos.getD i []).length := by
  rw [MotorEvolutivo.evoluir]
  rw [getD_zipWith _ m.pesos rand i [] [] [] hi (by omega), List.length_zipWith, hrow,
    Nat.min_self]

theorem evoluir_getD (m : MotorEvolutivo) (rand : List (List ℚ)) (taxa : ℚ)
    (i j : Nat) (hi : i < m.pesos.length) (hr : rand.length = m.pesos.length)
    (hj : j < (m.pesos.getD i []).length)
    (hrj : (rand.getD i []).length = (m.pesos.getD i []).length) :
    ((m.evoluir rand taxa).pesos.getD i []).getD j 0 =
      (m.pesos.getD i []).getD j 0 + ((rand.getD i []).getD j 0 - 1/2) * taxa := by
  rw [MotorEvolutivo.evoluir]
  rw [getD_zipWith _ m.pesos rand i [] [] [] hi (by omega),
    getD_zipWith _ _ _ j 0 0 0 hj (by omega)]

/-- Zipping a matrix of empty rows against an equally long list leaves it
unchanged; this is why the mutation of a zero-column matrix is a no-op. -/
theorem zipWith_rows_nil (f : List ℚ → List ℚ → List ℚ)
    (hf : ∀ r, f [] r = []) : ∀ (ps rs : List (List ℚ)),
    ps.length = rs.length → (∀ row ∈ ps, row = []) → List.zipWith f ps rs = ps
  | [], [], _, _ => rfl
  | [], _ :: _, h, _ => by simp at h
  | _ :: _, [], h, _ => by simp at h
  | p :: ps, r :: rs, h, hrows => by
    rw [List.zipWith_cons_cons, hrows p (by simp), hf r,
      zipWith_rows_nil f hf ps rs (by simpa using h) (fun row hrow => hrows row (by simp [hrow]))]

/-- Mutating a matrix with zero columns changes nothing. -/
theorem evoluir_no_columns (m : MotorEvolutivo) (rand : List (List ℚ)) (taxa : ℚ)
    (hr : rand.length = m.pesos.length) (hrows : ∀ row ∈ m.pesos, row = []) :
    m.evoluir rand taxa = m := by
  cases m with
  | mk ns na ps =>
    simp only [MotorEvolutivo.evoluir, MotorEvolutivo.mk.injEq, true_and]
    exact zipWith_rows_nil _ (fun r => by simp) ps rand
      (by simpa using hr.symm) (by simpa using hrows)

/-! ### Lemmas about the cycle -/

theorem mkMatrix_length (nr nc : Nat) (f : Nat → Nat → ℚ) :
    (mkMatrix nr nc f).length = nr := by
  simp [mkMatrix]

theorem mkMatrix_row_length (nr nc : Nat) (f : Nat → Nat → ℚ) :
    ∀ row ∈ mkMatrix nr nc f, row.length = nc := by
  intro row hrow
  rcases List.mem_map.1 hrow with ⟨i, _, rfl⟩
  simp

/-- The shape invariants `Gaia.__init__` establishes: the motor is sized
`(number of sensors, number of actions)`. -/
theorem Gaia.init_shape (dom : Dominio) (pesosRand : Nat → Nat → ℚ)
    (danoRand bemRand : Nat → ℚ) :
    (Gaia.init dom pesosRand danoRand bemRand).motor.n_acoes
        = dom.acoes_possiveis.length ∧
    (Gaia.init dom pesosRand danoRand bemRand).motor.pesos.length
        = dom.sentidos.length ∧
    ∀ row ∈ (Gaia.init dom pesosRand danoRand bemRand).motor.pesos,
      row.length = dom.acoes_possiveis.length := by
  refine ⟨rfl, mkMatrix_length _ _ _, ?_⟩
  exact mkMatrix_row_length _ _ _

/-- Evaluating one cycle once all three fallible stages are known to have
succeeded: the state mutates and the result is the argmax selection over the
tempered decision. -/
theorem viver_um_ciclo_eq (g : Gaia) (t : Nat) (rand : List (List ℚ))
    (rd red : List (String × ℚ)) (bruta : List ℚ)
    (hd : g.dominio.observar_realidade t = .ok rd)
    (hb : g.motor.pensar (rd.map Prod.snd) = .ok bruta)
    (hr : g.nucleo_etico.observar_realidade_etica t = .ok red) :
    viver_um_ciclo g t rand =
      (⟨g.dominio, g.motor.evoluir rand (1/100), g.nucleo_etico⟩,
        if (temper bruta (g.nucleo_etico.calcular_dissonancia red)).isEmpty then
          .error .emptyArgmax
        else
          match g.dominio.acoes_possiveis.get?
              (npArgmax (temper bruta (g.nucleo_etico.calcular_dissonancia red))) with
          | some a => .ok a
          | none => .error .indexError) := by
  simp only [viver_um_ciclo, hd, hb, hr]
  split
  · rfl
  · split <;> rfl

/-- The same evaluation for the spec-order cycle. -/
theorem viver_um_ciclo_spec_eq (g : Gaia) (t : Nat) (rand : List (List ℚ))
    (rd red : List (String × ℚ)) (bruta : List ℚ)
    (hd : g.dominio.observar_realidade t = .ok rd)
    (hb : g.motor.pensar (rd.map Prod.snd) = .ok bruta)
    (hr : g.nucleo_etico.observar_realidade_etica t = .ok red) :
    viver_um_ciclo_spec g t rand =
      (if (temper bruta (g.nucleo_etico.calcular_dissonancia red)).isEmpty then
          (g, .error .emptyArgmax)
        else
          match g.dominio.acoes_possiveis.get?
              (npArgmax (temper bruta (g.nucleo_etico.calcular_dissonancia red))) with
          | some a =>
            (⟨g.dominio, g.motor.evoluir rand (1/100), g.nucleo_etico⟩, .ok a)
          | none => (g, .error .indexError)) := by
  simp only [viver_um_ciclo_spec, hd, hb, hr]

/-- A successful cycle forces the non-empty branch and pins the returned
action to the argmax selection over the tempered decision vector. -/
theorem viver_um_ciclo_ok_imp (g : Gaia) (t : Nat) (rand : List (List ℚ))
    (rd red : List (String × ℚ)) (bruta : List ℚ)
    (hd : g.dominio.observar_realidade t = .ok rd)
    (hb : g.motor.pensar (rd.map Prod.snd) = .ok bruta)
    (hr : g.nucleo_etico.observar_realidade_etica t = .ok red)
    (a : String) (hok : (viver_um_ciclo g t rand).2 = .ok a) :
    (temper bruta (g.nucleo_etico.calcular_dissonancia red)).isEmpty = false ∧
    g.dominio.acoes_possiveis.get?
      (npArgmax (temper bruta (g.nucleo_etico.calcular_dissonancia red))) = some a := by
  rw [viver_um_ciclo_eq g t rand rd red bruta hd hb hr] at hok
  cases hE : (temper bruta (g.nucleo_etico.calcular_dissonancia red)).isEmpty with
  | true =>
    rw [hE] at hok
    simp at hok
  | false =>
    rw [hE] at hok
    simp only [Bool.false_eq_true, if_false] at hok
    cases hq : g.dominio.acoes_possiveis.get?
        (npArgmax (temper bruta (g.nucleo_etico.calcular_dissonancia red))) with
    | some a2 =>
      rw [hq] at hok
      have hok2 : (Except.ok a2 : Except GaiaErr String) = .ok a := hok
      rw [Except.ok.injEq] at hok2
      exact ⟨rfl, congrArg some hok2⟩
    | none =>
      rw [hq] at hok
      simp at hok

/-- Whenever a cycle returns an action at all, it is one of the domain's
configured action strings. -/
theorem viver_um_ciclo_ok_mem (g : Gaia) (t : Nat) (rand : List (List ℚ))
    (a : String) (hok : (viver_um_ciclo g t rand).2 = .ok a) :
    a ∈ g.dominio.acoes_possiveis := by
  cases hd : g.dominio.observar_realidade t with
  | error e => simp [viver_um_ciclo, hd] at hok
  | ok rd =>
    cases hb : g.motor.pensar (rd.map Prod.snd) with
    | error e => simp [viver_um_ciclo, hd, hb] at hok
    | ok bruta =>
      cases hr : g.nucleo_etico.observar_realidade_etica t with
      | error e => simp [viver_um_ciclo, hd, hb, hr] at hok
      | ok red =>
        exact List.get?_mem
          (viver_um_ciclo_ok_imp g t rand rd red bruta hd hb hr a hok).2

/-- C1 counterexample: the claim says every construction of a `Dominio` with
an empty action sequence raises a configuration error, yet at this concrete
input `Dominio.__init__` succeeds (the Python constructor has no validation
whatsoever). -/
theorem dominio_init_empty_actions_succeeds :
    Dominio.init "Analise de Estrategia de Negocios" [] []
      = .ok ⟨"Analise de Estrategia de Negocios", [], []⟩ :=
  rfl

/-- C1 (amended): constructing a `Dominio` with an empty action list always
SUCCEEDS — the constructor performs no validation — and the failure is
deferred: every cycle run on an agent over such a domain ends in an error
(at argmax time, after the mutation step) instead of returning an action. -/
theorem dominio_init_no_validation (nome : String) (sentidos : List Sentido)
    (pesosRand : Nat → Nat → ℚ) (danoRand bemRand : Nat → ℚ) (t : Nat)
    (rand : List (List ℚ)) :
    Dominio.init nome sentidos [] = .ok ⟨nome, sentidos, []⟩ ∧
    ((viver_um_ciclo (Gaia.init ⟨nome, sentidos, []⟩ pesosRand danoRand bemRand)
        t rand).2).isOk = false := by
  refine ⟨rfl, ?_⟩
  set g := Gaia.init ⟨nome, sentidos, []⟩ pesosRand danoRand bemRand with hg
  cases hd : g.dominio.observar_realidade t with
  | error e => simp [viver_um_ciclo, hd, Except.isOk, Except.toBool]
  | ok rd =>
    cases hb : g.motor.pensar (rd.map Prod.snd) with
    | error e => simp [viver_um_ciclo, hd, hb, Except.isOk, Except.toBool]
    | ok bruta =>
      cases hr : g.nucleo_etico.observar_realidade_etica t with
      | error e => simp [viver_um_ciclo, hd, hb, hr, Except.isOk, Except.toBool]
      | ok red =>
        have hbnil : bruta = [] :=
          pensar_ok_nil g.motor _ _ (by rw [hg]; rfl) hb
        rw [viver_um_ciclo_eq g t rand rd red bruta hd hb hr]
        subst hbnil
        simp [temper, Except.isOk, Except.toBool]

/-- C2 counterexample: on the (constructible) agent over an empty action
list, every sensor read of the cycle succeeds, yet the cycle does not
complete the selection — it raises at the argmax — so "otherwise the cycle
completes both selection and mutation" fails at this concrete state. -/
theorem ciclo_sem_falha_de_sensor_nao_completa :
    (observarSentidos gVazio.dominio.sentidos 0).isOk = true ∧
    (observarSentidos gVazio.nucleo_etico.imperativos 0).isOk = true ∧
    (viver_um_ciclo gVazio 0 [[]]).2 = .error .emptyArgmax := by
  refine ⟨rfl, rfl, rfl⟩

/-- C4: mutation boundedness — with the uniform draws of
`np.random.rand` (each in `[0, 1)`) and a nonnegative rate, every entry of
the weight matrix moves by at most `taxa/2` in absolute value and the matrix
shape is unchanged.  (Independence of the draws is a property of the random
source, not of this arithmetic.) -/
theorem evoluir_bounded (m : MotorEvolutivo) (rand : List (List ℚ)) (taxa : ℚ)
    (htaxa : 0 ≤ taxa)
    (hlen : rand.length = m.pesos.length)
    (hrows : ∀ i, i < m.pesos.length →
      (rand.getD i []).length = (m.pesos.getD i []).length)
    (hunit : ∀ rrow ∈ rand, ∀ u ∈ rrow, 0 ≤ u ∧ u < 1) :
    (m.evoluir rand taxa).pesos.length = m.pesos.length ∧
    (∀ i, i < m.pesos.length →
      ((m.evoluir rand taxa).pesos.getD i []).length = (m.pesos.getD i []).length) ∧
    ∀ i j, i < m.pesos.length → j < (m.pesos.getD i []).length →
      |((m.evoluir rand taxa).pesos.getD i []).getD j 0
        - (m.pesos.getD i []).getD j 0| ≤ taxa / 2 := by
  refine ⟨evoluir_length m rand taxa hlen,
    fun i hi => evoluir_row_length m rand taxa i hi hlen (hrows i hi), ?_⟩
  intro i j hi hj
  rw [evoluir_getD m rand taxa i j hi hlen hj (hrows i hi), add_sub_cancel_left,
    abs_mul, abs_of_nonneg htaxa]
  have hu := hunit (rand.getD i []) (getD_mem rand i [] (by omega))
    ((rand.getD i []).getD j 0) (getD_mem _ j 0 (by rw [hrows i hi]; exact hj))
  have h1 : |(rand.getD i []).getD j 0 - 1/2| ≤ 1/2 := by
    rw [abs_le]
    constructor <;> linarith [hu.1, hu.2]
  calc |(rand.getD i []).getD j 0 - 1/2| * taxa ≤ (1/2) * taxa :=
        mul_le_mul_of_nonneg_right h1 htaxa
    _ = taxa / 2 := by ring

/-- C4 witness: a concrete `1 × 1` matrix, draw `3/4`, rate `1/100`. -/
theorem evoluir_bounded_witness :
    |(((⟨1, 1, [[0]]⟩ : MotorEvolutivo).evoluir [[3/4]] (1/100)).pesos.getD 0 []).getD 0 0
      - ((([[0]] : List (List ℚ)).getD 0 []).getD 0 0)| ≤ (1/100) / 2 :=
  (evoluir_bounded ⟨1, 1, [[0]]⟩ [[3/4]] (1/100) (by norm_num) (by decide)
    (by
      intro i hi
      have hi0 : i = 0 := by simpa using hi
      subst hi0
      rfl)
    (by
      intro rrow hrow u hu
      simp only [List.mem_singleton] at hrow
      subst hrow
      simp only [List.mem_singleton] at hu
      subst hu
      norm_num)).2.2 0 0 (by decide) (by decide)

/-- C7: dissonance monotonicity of the tempering step — with a positive mean
raw preference, a larger dissonance never increases any component of the
tempered decision vector. -/
theorem temper_dissonance_monotone (bruta : List ℚ) (d1 d2 : ℚ)
    (hmean : 0 < npMean bruta) (hd : d1 ≤ d2) :
    ∀ j, j < bruta.length →
      (temper bruta d2).getD j 0 ≤ (temper bruta d1).getD j 0 := by
  intro j hj
  rw [temper, getD_map_rat _ _ j hj, temper, getD_map_rat _ _ j hj]
  have h1 : d1 * npMean bruta ≤ d2 * npMean bruta :=
    mul_le_mul_of_nonneg_right hd (le_of_lt hmean)
  linarith

/-- C7 witness: raw vector `[1, 3]` (mean `2`), dissonances `0 ≤ 1`. -/
theorem temper_dissonance_monotone_witness :
    (temper [1, 3] 1).getD 0 0 ≤ (temper [1, 3] 0).getD 0 0 :=
  temper_dissonance_monotone [1, 3] 0 1 (by norm_num [npMean]) (by norm_num) 0 (by norm_num)

/-- C9: duplicate sensor names collapse the observation — a later reading
overwrites the earlier one under the shared dict key, so the observation has
strictly fewer entries than the domain has sensors, and the observation
vector fed to scoring is strictly shorter than the weight matrix's row
count. -/
theorem observar_realidade_duplicate_names_collapse (dom : Dominio) (t : Nat)
    (d : List (String × ℚ))
    (hdup : ¬ (dom.sentidos.map Sentido.nome).Nodup)
    (h : dom.observar_realidade t = .ok d) :
    d.length < dom.sentidos.length ∧
    ∀ (pesosRand : Nat → Nat → ℚ) (danoRand bemRand : Nat → ℚ),
      (d.map Prod.snd).length
        < (Gaia.init dom pesosRand danoRand bemRand).motor.pesos.length := by
  have hkeys := observarAux_ok_keys dom.sentidos t [] d (by simp) h
  have h1 : (d.map Prod.fst).length = d.length := List.length_map _ _
  have h2 : (d.map Prod.fst).toFinset.card = (d.map Prod.fst).length :=
    List.toFinset_card_of_nodup hkeys.1
  have h3 : (d.map Prod.fst).toFinset = (dom.sentidos.map Sentido.nome).toFinset := by
    rw [hkeys.2]
    simp
  have h3c := congrArg Finset.card h3
  have h4 : (dom.sentidos.map Sentido.nome).toFinset.card
      = (dom.sentidos.map Sentido.nome).dedup.length := List.card_toFinset _
  have h5 : (dom.sentidos.map Sentido.nome).dedup.length
      ≤ (dom.sentidos.map Sentido.nome).length :=
    (List.dedup_sublist _).length_le
  have h6 : (dom.sentidos.map Sentido.nome).dedup.length
      ≠ (dom.sentidos.map Sentido.nome).length := by
    intro heq
    have hself : (dom.sentidos.map Sentido.nome).dedup = dom.sentidos.map Sentido.nome :=
      (List.dedup_sublist _).eq_of_length heq
    exact hdup (hself ▸ List.nodup_dedup (dom.sentidos.map Sentido.nome))
  have h7 : (dom.sentidos.map Sentido.nome).length = dom.sentidos.length :=
    List.length_map _ _
  have hlen : d.length < dom.sentidos.length := by omega
  refine ⟨hlen, ?_⟩
  intro pesosRand danoRand bemRand
  rw [List.length_map, (Gaia.init_shape dom pesosRand danoRand bemRand).2.1]
  exact hlen

/-- C9 witness: the two-sensor domain whose sensors share the name `"s"`. -/
theorem observar_realidade_duplicate_names_collapse_witness :
    ([("s", (2 : ℚ))] : List (String × ℚ)).length < domDup.sentidos.length ∧
    (([("s", (2 : ℚ))].map Prod.snd).length
      < (Gaia.init domDup (fun _ _ => 0) (fun _ => 0) (fun _ => 0)).motor.pesos.length) := by
  have h := observar_realidade_duplicate_names_collapse domDup 0 [("s", 2)]
    (by decide) rfl
  exact ⟨h.1, h.2 (fun _ _ => 0) (fun _ => 0) (fun _ => 0)⟩

/-! ### Concrete evaluations of the scenario agent -/

theorem gCenario_pesos : gCenario.motor.pesos = [[2, 0, 1], [0, 1, 3]] := by
  norm_num [gCenario, Gaia.init, MotorEvolutivo.init, mkMatrix, pesosCenario,
    domCenario, List.range_succ]

theorem gCenario_obs :
    gCenario.dominio.observar_realidade 0
      = .ok [("competicao_mercado", 1), ("satisfacao_cliente", 0)] := by
  simp [gCenario, Gaia.init, domCenario, senUm, senZero, Dominio.observar_realidade,
    observarSentidos, observarAux, Sentido.ler, dictInsert]

theorem gCenario_eth (t : Nat) :
    gCenario.nucleo_etico.observar_realidade_etica t
      = .ok [("dano_sistemico", 0), ("bem-estar_agentes", 0)] := by
  simp [gCenario, Gaia.init, NucleoEtico.observar_realidade_etica,
    observarSentidos, observarAux, Sentido.ler, dictInsert]

theorem gCenario_pensar : gCenario.motor.pensar [1, 0] = .ok [2, 0, 1] := by
  rw [MotorEvolutivo.pensar, if_pos (by rw [gCenario_pesos]; rfl), gCenario_pesos]
  norm_num [List.zip, List.zipWith]

theorem gCenario_ciclo :
    (viver_um_ciclo gCenario 0 randMeio).2 = .ok "acao0" := by
  have h := viver_um_ciclo_eq gCenario 0 randMeio
    [("competicao_mercado", 1), ("satisfacao_cliente", 0)]
    [("dano_sistemico", 0), ("bem-estar_agentes", 0)] [2, 0, 1]
    gCenario_obs gCenario_pensar (gCenario_eth 0)
  rw [h]
  norm_num [temper, npMean, NucleoEtico.calcular_dissonancia, npArgmax,
    gCenario, Gaia.init, domCenario]

/-- C3: in every cycle whose three fallible stages succeed, the dissonance is
the sum of the values of that cycle's ethical observation, the tempered
decision satisfies `final[a] = raw[a] - dissonancia * mean(raw)` for every
action index, and any returned action is selected by argmax from this
tempered vector. -/
theorem viver_um_ciclo_tempering_formula (g : Gaia) (t : Nat)
    (rand : List (List ℚ)) (rd red : List (String × ℚ)) (bruta : List ℚ)
    (hd : g.dominio.observar_realidade t = .ok rd)
    (hb : g.motor.pensar (rd.map Prod.snd) = .ok bruta)
    (hr : g.nucleo_etico.observar_realidade_etica t = .ok red) :
    g.nucleo_etico.calcular_dissonancia red = (red.map Prod.snd).sum ∧
    (temper bruta (g.nucleo_etico.calcular_dissonancia red)).length = bruta.length ∧
    (∀ a, a < bruta.length →
      (temper bruta (g.nucleo_etico.calcular_dissonancia red)).getD a 0
        = bruta.getD a 0 - g.nucleo_etico.calcular_dissonancia red * npMean bruta) ∧
    ∀ a, (viver_um_ciclo g t rand).2 = .ok a →
      g.dominio.acoes_possiveis.get?
        (npArgmax (temper bruta (g.nucleo_etico.calcular_dissonancia red)))
        = some a := by
  refine ⟨rfl, List.length_map _ _, ?_, ?_⟩
  · intro a ha
    rw [temper, getD_map_rat _ _ a ha]
  · intro a hok
    exact (viver_um_ciclo_ok_imp g t rand rd red bruta hd hb hr a hok).2

/-- C3 witness: the scenario agent at time `0`. -/
theorem viver_um_ciclo_tempering_formula_witness :
    gCenario.nucleo_etico.calcular_dissonancia
        [("dano_sistemico", 0), ("bem-estar_agentes", 0)]
      = (([("dano_sistemico", (0 : ℚ)), ("bem-estar_agentes", 0)]).map Prod.snd).sum ∧
    (temper [2, 0, 1] (gCenario.nucleo_etico.calcular_dissonancia
        [("dano_sistemico", 0), ("bem-estar_agentes", 0)])).length
      = ([(2 : ℚ), 0, 1]).length ∧
    (∀ a, a < ([(2 : ℚ), 0, 1]).length →
      (temper [2, 0, 1] (gCenario.nucleo_etico.calcular_dissonancia
          [("dano_sistemico", 0), ("bem-estar_agentes", 0)])).getD a 0
        = ([(2 : ℚ), 0, 1]).getD a 0
          - gCenario.nucleo_etico.calcular_dissonancia
              [("dano_sistemico", 0), ("bem-estar_agentes", 0)] * npMean [2, 0, 1]) ∧
    ∀ a, (viver_um_ciclo gCenario 0 randMeio).2 = .ok a →
      gCenario.dominio.acoes_possiveis.get?
        (npArgmax (temper [2, 0, 1] (gCenario.nucleo_etico.calcular_dissonancia
          [("dano_sistemico", 0), ("bem-estar_agentes", 0)]))) = some a :=
  viver_um_ciclo_tempering_formula gCenario 0 randMeio
    [("competicao_mercado", 1), ("satisfacao_cliente", 0)]
    [("dano_sistemico", 0), ("bem-estar_agentes", 0)] [2, 0, 1]
    gCenario_obs gCenario_pensar (gCenario_eth 0)

/-- C5: closure — any action a cycle returns is one of the domain's
configured strings — and tie-break determinism: the returned action sits at
the argmax index of the tempered vector, an index whose value dominates every
component and strictly dominates every earlier component (lowest index among
the maximal ones). -/
theorem viver_um_ciclo_tie_break_and_closure (g : Gaia) (t : Nat)
    (rand : List (List ℚ)) :
    (∀ a, (viver_um_ciclo g t rand).2 = .ok a → a ∈ g.dominio.acoes_possiveis) ∧
    ∀ (rd red : List (String × ℚ)) (bruta : List ℚ),
      g.dominio.observar_realidade t = .ok rd →
      g.motor.pensar (rd.map Prod.snd) = .ok bruta →
      g.nucleo_etico.observar_realidade_etica t = .ok red →
      ∀ a, (viver_um_ciclo g t rand).2 = .ok a →
        g.dominio.acoes_possiveis.get?
          (npArgmax (temper bruta (g.nucleo_etico.calcular_dissonancia red)))
          = some a ∧
        (∀ j, j < (temper bruta (g.nucleo_etico.calcular_dissonancia red)).length →
          (temper bruta (g.nucleo_etico.calcular_dissonancia red)).getD j 0
            ≤ (temper bruta (g.nucleo_etico.calcular_dissonancia red)).getD
                (npArgmax (temper bruta (g.nucleo_etico.calcular_dissonancia red))) 0) ∧
        ∀ j, j < npArgmax (temper bruta (g.nucleo_etico.calcular_dissonancia red)) →
          (temper bruta (g.nucleo_etico.calcular_dissonancia red)).getD j 0
            < (temper bruta (g.nucleo_etico.calcular_dissonancia red)).getD
                (npArgmax (temper bruta (g.nucleo_etico.calcular_dissonancia red))) 0 := by
  refine ⟨fun a hok => viver_um_ciclo_ok_mem g t rand a hok, ?_⟩
  intro rd red bruta hd hb hr a hok
  refine ⟨(viver_um_ciclo_ok_imp g t rand rd red bruta hd hb hr a hok).2,
    fun j hj => npArgmax_is_max _ j hj,
    fun j hj => npArgmax_is_first _ j hj⟩

/-- C5 witness: the scenario agent selects `"acao0"`, which is a configured
action and the argmax selection of its tempered vector. -/
theorem viver_um_ciclo_tie_break_and_closure_witness :
    "acao0" ∈ gCenario.dominio.acoes_possiveis ∧
    gCenario.dominio.acoes_possiveis.get?
      (npArgmax (temper [2, 0, 1] (gCenario.nucleo_etico.calcular_dissonancia
        [("dano_sistemico", 0), ("bem-estar_agentes", 0)]))) = some "acao0" :=
  have h := viver_um_ciclo_tie_break_and_closure gCenario 0 randMeio
  ⟨h.1 "acao0" gCenario_ciclo,
   (h.2 [("competicao_mercado", 1), ("satisfacao_cliente", 0)]
      [("dano_sistemico", 0), ("bem-estar_agentes", 0)] [2, 0, 1]
      gCenario_obs gCenario_pensar (gCenario_eth 0) "acao0" gCenario_ciclo).1⟩

/-- C6: scoring is the standard matrix-vector product
`result[a] = Σ_s v[s] * W[s][a]` — a pure function returning a length-`A`
vector — and the spec's scenario holds: weights `[[2,0,1],[0,1,3]]`, sensors
fixed at `[1, 0]` and zero dissonance give raw preference `[2, 0, 1]` and
selected action index `0`. -/
theorem pensar_matvec_and_scenario :
    (∀ (m : MotorEvolutivo) (v : List ℚ),
      v.length = m.pesos.length →
      (∀ row ∈ m.pesos, row.length = m.n_acoes) →
      ∃ b, m.pensar v = .ok b ∧ b.length = m.n_acoes ∧
        ∀ a, a < m.n_acoes →
          b.getD a 0 = ∑ s ∈ Finset.range v.length,
            v.getD s 0 * ((m.pesos.getD s []).getD a 0)) ∧
    gCenario.motor.pesos = [[2, 0, 1], [0, 1, 3]] ∧
    gCenario.motor.pensar [1, 0] = .ok [2, 0, 1] ∧
    (viver_um_ciclo gCenario 0 randMeio).2 = .ok "acao0" ∧
    gCenario.dominio.acoes_possiveis.get? 0 = some "acao0" :=
  ⟨pensar_ok_spec, gCenario_pesos, gCenario_pensar, gCenario_ciclo, rfl⟩

/-- C6 witness: the matrix-vector specification applied to the scenario
motor and the fixed observation `[1, 0]`. -/
theorem pensar_matvec_and_scenario_witness :
    ∃ b, gCenario.motor.pensar [1, 0] = .ok b ∧
      b.length = gCenario.motor.n_acoes ∧
      ∀ a, a < gCenario.motor.n_acoes →
        b.getD a 0 = ∑ s ∈ Finset.range ([(1 : ℚ), 0]).length,
          ([(1 : ℚ), 0]).getD s 0 * ((gCenario.motor.pesos.getD s []).getD a 0) :=
  pensar_matvec_and_scenario.1 gCenario.motor [1, 0]
    (by rw [gCenario_pesos]; rfl)
    (by
      intro row hrow
      rw [gCenario_pesos] at hrow
      simp only [List.mem_cons, List.not_mem_nil, or_false] at hrow
      rcases hrow with rfl | rfl <;> rfl)

/-- C2 (amended): the first half of the claim holds for every agent state —
if any sensor read (domain or ethical) fails, the cycle aborts before
mutation, leaves the agent (hence the weight matrix) unchanged and reports an
error.  The "otherwise the cycle completes both selection and mutation" half
holds under the constructor's shape invariants together with distinct sensor
names and a NONEMPTY action list; the empty-action agent is the
counterexample forcing this restriction. -/
theorem viver_um_ciclo_atomicity (g : Gaia) (t : Nat) (rand : List (List ℚ)) :
    (((observarSentidos g.dominio.sentidos t).isOk = false ∨
      (observarSentidos g.nucleo_etico.imperativos t).isOk = false) →
      (viver_um_ciclo g t rand).1 = g ∧
      ∃ e, (viver_um_ciclo g t rand).2 = .error e) ∧
    ((g.dominio.sentidos.map Sentido.nome).Nodup →
     g.motor.pesos.length = g.dominio.sentidos.length →
     (∀ row ∈ g.motor.pesos, row.length = g.motor.n_acoes) →
     g.motor.n_acoes = g.dominio.acoes_possiveis.length →
     g.dominio.acoes_possiveis ≠ [] →
     (observarSentidos g.dominio.sentidos t).isOk = true →
     (observarSentidos g.nucleo_etico.imperativos t).isOk = true →
     ∃ a, (viver_um_ciclo g t rand).2 = .ok a ∧
       (viver_um_ciclo g t rand).1.motor = g.motor.evoluir rand (1/100)) := by
  constructor
  · intro hfail
    cases hd : g.dominio.observar_realidade t with
    | error e => refine ⟨?_, e, ?_⟩ <;> simp [viver_um_ciclo, hd]
    | ok rd =>
      have hd2 : observarSentidos g.dominio.sentidos t = .ok rd := hd
      cases hb : g.motor.pensar (rd.map Prod.snd) with
      | error e => refine ⟨?_, e, ?_⟩ <;> simp [viver_um_ciclo, hd, hb]
      | ok bruta =>
        cases hr : g.nucleo_etico.observar_realidade_etica t with
        | error e => refine ⟨?_, e, ?_⟩ <;> simp [viver_um_ciclo, hd, hb, hr]
        | ok red =>
          have hr2 : observarSentidos g.nucleo_etico.imperativos t = .ok red := hr
          rcases hfail with hf | hf
          · rw [hd2] at hf
            simp [Except.isOk, Except.toBool] at hf
          · rw [hr2] at hf
            simp [Except.isOk, Except.toBool] at hf
  · intro hnd hplen hrows hna hne hdok heok
    cases hd : g.dominio.observar_realidade t with
    | error e =>
      have hd2 : observarSentidos g.dominio.sentidos t = .error e := hd
      rw [hd2] at hdok
      simp [Except.isOk, Except.toBool] at hdok
    | ok rd =>
      have hdlen : rd.length = g.dominio.sentidos.length := by
        have h0 := observarAux_ok_length g.dominio.sentidos t [] rd hnd (by simp) hd
        simpa using h0
      obtain ⟨bruta, hb, hblen, _⟩ := pensar_ok_spec g.motor (rd.map Prod.snd)
        (by rw [List.length_map, hdlen, hplen]) hrows
      cases hr : g.nucleo_etico.observar_realidade_etica t with
      | error e =>
        have hr2 : observarSentidos g.nucleo_etico.imperativos t = .error e := hr
        rw [hr2] at heok
        simp [Except.isOk, Except.toBool] at heok
      | ok red =>
        rw [viver_um_ciclo_eq g t rand rd red bruta hd hb hr]
        have hlen2 : (temper bruta (g.nucleo_etico.calcular_dissonancia red)).length
            = g.dominio.acoes_possiveis.length := by
          rw [temper, List.length_map, hblen, hna]
        have hner : temper bruta (g.nucleo_etico.calcular_dissonancia red) ≠ [] := by
          intro hcon
          rw [hcon] at hlen2
          exact hne (List.length_eq_zero.1 hlen2.symm)
        have hE : (temper bruta (g.nucleo_etico.calcular_dissonancia red)).isEmpty
            = false := by
          cases hEc : (temper bruta (g.nucleo_etico.calcular_dissonancia red)).isEmpty with
          | false => rfl
          | true => exact absurd (List.isEmpty_iff.1 hEc) hner
        have hlt : npArgmax (temper bruta (g.nucleo_etico.calcular_dissonancia red))
            < g.dominio.acoes_possiveis.length := by
          rw [← hlen2]
          exact npArgmax_lt_length _ hner
        cases hq : g.dominio.acoes_possiveis.get?
            (npArgmax (temper bruta (g.nucleo_etico.calcular_dissonancia red))) with
        | none =>
          rw [List.get?_eq_none] at hq
          omega
        | some a =>
          refine ⟨a, ?_, rfl⟩
          simp only [hE, Bool.false_eq_true, if_false, hq]

/-- C2 witness: the failing-sensor agent aborts unchanged with an error; the
scenario agent returns an action and applies exactly one mutation. -/
theorem viver_um_ciclo_atomicity_witness :
    ((viver_um_ciclo gFalha 0 [[1/2]]).1 = gFalha ∧
      ∃ e, (viver_um_ciclo gFalha 0 [[1/2]]).2 = .error e) ∧
    ∃ a, (viver_um_ciclo gCenario 0 randMeio).2 = .ok a ∧
      (viver_um_ciclo gCenario 0 randMeio).1.motor
        = gCenario.motor.evoluir randMeio (1/100) :=
  ⟨(viver_um_ciclo_atomicity gFalha 0 [[1/2]]).1 (Or.inl rfl),
   (viver_um_ciclo_atomicity gCenario 0 randMeio).2 (by decide) (by decide)
     (by
       intro row hrow
       rw [gCenario_pesos] at hrow
       simp only [List.mem_cons, List.not_mem_nil, or_false] at hrow
       rcases hrow with rfl | rfl <;> rfl)
     rfl (by decide) rfl rfl⟩

/-- C8: determinism of the decision path — with every sensor (domain and
ethical) reading a time-independent value, two runs of the cycle from the
same agent state (so with no mutation applied in between) return the same
selected action, whatever the mutation draws of each run. -/
theorem viver_um_ciclo_deterministic (g : Gaia) (t1 t2 : Nat)
    (r1 r2 : List (List ℚ))
    (hdom : ∀ s ∈ g.dominio.sentidos, ∀ u1 u2,
      s.funcao_leitura u1 = s.funcao_leitura u2)
    (heth : ∀ s ∈ g.nucleo_etico.imperativos, ∀ u1 u2,
      s.funcao_leitura u1 = s.funcao_leitura u2) :
    (viver_um_ciclo g t1 r1).2 = (viver_um_ciclo g t2 r2).2 := by
  have h1 : g.dominio.observar_realidade t1 = g.dominio.observar_realidade t2 :=
    observarAux_time_const g.dominio.sentidos t1 t2 [] hdom
  have h2 : g.nucleo_etico.observar_realidade_etica t1
      = g.nucleo_etico.observar_realidade_etica t2 :=
    observarAux_time_const g.nucleo_etico.imperativos t1 t2 [] heth
  cases hd : g.dominio.observar_realidade t2 with
  | error e => simp only [viver_um_ciclo, h1, hd]
  | ok rd =>
    cases hb : g.motor.pensar (rd.map Prod.snd) with
    | error e => simp only [viver_um_ciclo, h1, hd, hb]
    | ok bruta =>
      cases hr : g.nucleo_etico.observar_realidade_etica t2 with
      | error e => simp only [viver_um_ciclo, h1, h2, hd, hb, hr]
      | ok red =>
        simp only [viver_um_ciclo, h1, h2, hd, hb, hr]
        cases hE : (temper bruta (g.nucleo_etico.calcular_dissonancia red)).isEmpty with
        | true => simp only [hE, if_true]
        | false =>
          simp only [hE, Bool.false_eq_true, if_false]
          cases hq : g.dominio.acoes_possiveis.get?
              (npArgmax (temper bruta (g.nucleo_etico.calcular_dissonancia red))) with
          | some a => simp only [hq]
          | none => simp only [hq]

/-- C8 witness: the scenario agent, whose sensors are all constant, selects
the same action at two different times with two different mutation draws. -/
theorem viver_um_ciclo_deterministic_witness :
    (viver_um_ciclo gCenario 0 randMeio).2 = (viver_um_ciclo gCenario 7 [[]]).2 :=
  viver_um_ciclo_deterministic gCenario 0 7 randMeio [[]]
    (by
      intro s hs u1 u2
      simp only [gCenario, Gaia.init, domCenario, List.mem_cons,
        List.not_mem_nil, or_false] at hs
      rcases hs with rfl | rfl <;> rfl)
    (by
      intro s hs u1 u2
      simp only [gCenario, Gaia.init, List.mem_cons, List.not_mem_nil,
        or_false] at hs
      rcases hs with rfl | rfl <;> rfl)

/-- C10: although the source mutates (line 94) before the argmax expression
(line 96), the tempered decision is fully computed beforehand, so under the
shapes `Gaia.__init__` establishes the source-order cycle and the
spec-order cycle (select, then mutate) return the same action AND the same
post-cycle state. -/
theorem viver_um_ciclo_equiv_spec_order (g : Gaia) (t : Nat)
    (rand : List (List ℚ))
    (hrows : ∀ row ∈ g.motor.pesos, row.length = g.motor.n_acoes)
    (hna : g.motor.n_acoes = g.dominio.acoes_possiveis.length)
    (hrlen : rand.length = g.motor.pesos.length) :
    viver_um_ciclo g t rand = viver_um_ciclo_spec g t rand := by
  cases hd : g.dominio.observar_realidade t with
  | error e => simp only [viver_um_ciclo, viver_um_ciclo_spec, hd]
  | ok rd =>
    cases hb : g.motor.pensar (rd.map Prod.snd) with
    | error e => simp only [viver_um_ciclo, viver_um_ciclo_spec, hd, hb]
    | ok bruta =>
      cases hr : g.nucleo_etico.observar_realidade_etica t with
      | error e => simp only [viver_um_ciclo, viver_um_ciclo_spec, hd, hb, hr]
      | ok red =>
        have hblen : bruta.length = g.motor.n_acoes := by
          have hb2 := hb
          rw [MotorEvolutivo.pensar] at hb2
          split at hb2
          · rw [Except.ok.injEq] at hb2
            rw [← hb2]
            have h0 := dot_fold_length (List.zip (rd.map Prod.snd) g.motor.pesos)
              (List.replicate g.motor.n_acoes 0)
              (fun p hp => by
                rw [List.length_replicate]
                exact hrows p.2 (List.of_mem_zip hp).2)
            simpa using h0
          · exact absurd hb2 (by simp)
        rw [viver_um_ciclo_eq g t rand rd red bruta hd hb hr,
          viver_um_ciclo_spec_eq g t rand rd red bruta hd hb hr]
        cases hE : (temper bruta (g.nucleo_etico.calcular_dissonancia red)).isEmpty with
        | true =>
          simp only [hE, if_true]
          have hbn : bruta = [] :=
            List.map_eq_nil_iff.1 (List.isEmpty_iff.1 hE)
          have hna0 : g.motor.n_acoes = 0 := by
            rw [← hblen, hbn]
            rfl
          have hrows0 : ∀ row ∈ g.motor.pesos, row = [] := fun row hrow =>
            List.length_eq_zero.1 (by rw [hrows row hrow, hna0])
          rw [evoluir_no_columns g.motor rand (1/100) hrlen hrows0]
        | false =>
          simp only [hE, Bool.false_eq_true, if_false]
          cases hq : g.dominio.acoes_possiveis.get?
              (npArgmax (temper bruta (g.nucleo_etico.calcular_dissonancia red))) with
          | some a => simp only [hq]
          | none =>
            have hner : temper bruta (g.nucleo_etico.calcular_dissonancia red) ≠ [] := by
              intro hcon
              rw [hcon] at hE
              simp at hE
            have hlt : npArgmax (temper bruta (g.nucleo_etico.calcular_dissonancia red))
                < g.dominio.acoes_possiveis.length := by
              have h0 := npArgmax_lt_length _ hner
              rw [temper, List.length_map, hblen, hna] at h0
              exact h0
            rw [List.get?_eq_none] at hq
            omega

/-- C10 witness: the scenario agent runs identically in both orders. -/
theorem viver_um_ciclo_equiv_spec_order_witness :
    viver_um_ciclo gCenario 0 randMeio = viver_um_ciclo_spec gCenario 0 randMeio :=
  viver_um_ciclo_equiv_spec_order gCenario 0 randMeio
    (by
      intro row hrow
      rw [gCenario_pesos] at hrow
      simp only [List.mem_cons, List.not_mem_nil, or_false] at hrow
      rcases hrow with rfl | rfl <;> rfl)
    rfl
    (by rw [gCenario_pesos]; rfl)
